import Mathlib

/-!
# Subscriptions service: record store and request handlers

A shallow embedding of `main.go`: the `subscriptions` table declared by
`createTableIfNotExists`, the five `PostgresDB` operations that run one SQL
statement each against it, and the five `SubHandler` HTTP handlers.

The relational store is explicit state: the rows of the table, the SERIAL
sequence behind `id`, and the health of the connection.  Each statement is
given the meaning its SQL text has under the declared schema
(`INTEGER` is 32-bit, `DATE` keeps the calendar day only, `CHECK (cost >= 0)`,
`PRIMARY KEY`).
-/

namespace Subscriptions

/-! ## Entity model -/

/-- Smallest value of the 32-bit `INTEGER` column type. -/
def minInt4 : Int := -2147483648

/-- Largest value of the 32-bit `INTEGER` column type; also the last value of a
`SERIAL` sequence. -/
def maxInt4 : Int := 2147483647

/-- Whether a Go `int` fits a parameter of type `INTEGER`. -/
def inInt4 (n : Int) : Bool := decide (minInt4 ≤ n) && decide (n ≤ maxInt4)

/-- A Go `time.Time` as far as this program observes it: `day` is the calendar
day of the instant in its own location (counted from 0001-01-01) and `clock`
is everything else (time of day and zone), `0` standing for midnight UTC.
Values are those the JSON decoder yields (RFC 3339, years 0000 to 9999); every
such day fits a `DATE` column and is accepted by the JSON encoder. -/
structure Time where
  day : Int
  clock : Nat
deriving DecidableEq

/-- The zero `time.Time`: 0001-01-01 00:00:00 UTC. -/
def Time.zero : Time := ⟨0, 0⟩

/-- A `time.Time` bound to a `DATE` parameter: only the calendar day is sent. -/
def toDate (t : Time) : Int := t.day

/-- A `DATE` value scanned into a `time.Time`: midnight UTC of that day. -/
def fromDate (d : Int) : Time := ⟨d, 0⟩

/-- The Go struct `Sub`.  `EndDate` is the pointer field, `none` for nil. -/
structure Sub where
  ID : Int
  ServiceName : String
  Cost : Int
  UserID : Int
  StartDate : Time
  EndDate : Option Time
deriving DecidableEq

/-- The zero value `Sub{}`. -/
def Sub.zero : Sub := ⟨0, "", 0, 0, Time.zero, none⟩

/-- A Go slice: `nil` is the nil slice of `var subs []Sub`, `mk` a slice that
has been appended to. -/
inductive Slice (α : Type) where
  | nil : Slice α
  | mk (elems : List α) : Slice α

/-- The elements of a slice, in order. -/
def Slice.toList {α : Type} : Slice α → List α
  | .nil => []
  | .mk l => l

/-- Go's `append(s, a)`; the result is never nil. -/
def Slice.append {α : Type} (s : Slice α) (a : α) : Slice α := .mk (s.toList ++ [a])

/-- One row of `subscriptions`, columns in declaration order.  `end_date` is
the only nullable column. -/
structure Row where
  id : Int
  service_name : String
  cost : Int
  user_id : Int
  start_date : Int
  end_date : Option Int
deriving DecidableEq

/-- The Go `error` values the handlers can receive. -/
inductive Err where
  /-- `json.Decoder.Decode` rejected the body; `msg` is its message. -/
  | decode (msg : String)
  /-- The store could not be reached; `msg` is the driver's message. -/
  | conn (msg : String)
  /-- `sql.ErrNoRows`: `QueryRow(...).Scan` found no row. -/
  | noRows
  /-- An integer argument does not fit the `INTEGER` parameter. -/
  | intRange (n : Int)
  /-- A text argument holds a NUL character, which `TEXT` cannot store. -/
  | badText
  /-- A string argument bound to an `INTEGER` parameter is not an integer. -/
  | badInteger (s : String)
  /-- The sequence behind `id SERIAL` has reached its last value. -/
  | seqLimit
  /-- `CHECK (cost >= 0)` rejected the new row. -/
  | check
  /-- `PRIMARY KEY` rejected the new row. -/
  | unique
deriving DecidableEq

/-- Go's `err.Error()`.  The text of a store error is whatever the driver
reports; the strings below name its kind, and no property stated in this file
depends on their wording. -/
def Err.Error : Err → String
  | .decode msg => msg
  | .conn msg => msg
  | .noRows => "sql: no rows in result set"
  | .intRange n =>
    if maxInt4 < n then toString n ++ " is greater than maximum value for int4"
    else toString n ++ " is less than minimum value for int4"
  | .badText => "ERROR: invalid byte sequence for encoding \"UTF8\": 0x00 (SQLSTATE 22021)"
  | .badInteger s => "ERROR: invalid input syntax for type integer: \"" ++ s ++ "\" (SQLSTATE 22P02)"
  | .seqLimit => "ERROR: nextval: reached maximum value of sequence \"subscriptions_id_seq\" (2147483647) (SQLSTATE 2200H)"
  | .check => "ERROR: new row for relation \"subscriptions\" violates check constraint \"subscriptions_cost_check\" (SQLSTATE 23514)"
  | .unique => "ERROR: duplicate key value violates unique constraint \"subscriptions_pkey\" (SQLSTATE 23505)"

/-- The database behind `*sql.DB`: the rows of `subscriptions` in scan order,
the last value handed out by the sequence of `id SERIAL` (`0` before the first
insert), and `down`, which is `some msg` while the store cannot be reached
(every statement then fails with `msg`). -/
structure SqlDB where
  rows : List Row
  seq : Int
  down : Option String

/-- The Go struct `PostgresDB`. -/
structure PostgresDB where
  db : SqlDB

/-- `NewPostgresDB`. -/
def NewPostgresDB (db : SqlDB) : PostgresDB := ⟨db⟩

/-- The table right after `createTableIfNotExists` created it. -/
def emptyTable (down : Option String) : PostgresDB := ⟨⟨[], 0, down⟩⟩

/-- Whether a text argument holds the NUL character. -/
def hasNul (s : String) : Bool := s.toList.contains (Char.ofNat 0)

/-- The call `rows.Scan(&s.ID, &s.ServiceName, &s.Cost, &s.UserID, &s.StartDate, &s.EndDate)`
on one row of `SELECT *` or `RETURNING *`. -/
def scan (r : Row) : Sub :=
  ⟨r.id, r.service_name, r.cost, r.user_id, fromDate r.start_date, r.end_date.map fromDate⟩

/-- The row written by the `INSERT` of `Create` once `id` has been drawn. -/
def insertRow (id : Int) (sub : Sub) : Row :=
  ⟨id, sub.ServiceName, sub.Cost, sub.UserID, toDate sub.StartDate, sub.EndDate.map toDate⟩

/-- The `SET` clause of `Update`: `service_name`, `cost`, `start_date` and
`end_date` are assigned, `id` and `user_id` are not mentioned. -/
def setRow (sub : Sub) (r : Row) : Row :=
  { r with service_name := sub.ServiceName, cost := sub.Cost,
           start_date := toDate sub.StartDate, end_date := sub.EndDate.map toDate }

/-! ## Record store -/

/-- `PostgresDB.List`: `SELECT * FROM subscriptions`, every row scanned and
appended to a slice that starts nil. -/
def PostgresDB.List (p : PostgresDB) : Slice Sub × Option Err :=
  match p.db.down with
  | some msg => (.nil, some (.conn msg))
  | none => (p.db.rows.foldl (fun subs r => subs.append (scan r)) .nil, none)

/-- `PostgresDB.Create`: the `INSERT ... RETURNING id`.  Arguments are bound
first (`cost` and `user_id` must fit `INTEGER`, `service_name` must be storable
text); then the default of `id` draws the next sequence value, which stays
drawn even if the row is then rejected by `CHECK (cost >= 0)` or by the primary
key.  On success the argument is returned with `ID` filled in. -/
def PostgresDB.Create (p : PostgresDB) (sub : Sub) : PostgresDB × Sub × Option Err :=
  match p.db.down with
  | some msg => (p, Sub.zero, some (.conn msg))
  | none =>
    if !inInt4 sub.Cost then (p, Sub.zero, some (.intRange sub.Cost))
    else if !inInt4 sub.UserID then (p, Sub.zero, some (.intRange sub.UserID))
    else if hasNul sub.ServiceName then (p, Sub.zero, some .badText)
    else if maxInt4 ≤ p.db.seq then (p, Sub.zero, some .seqLimit)
    else
      let id := p.db.seq + 1
      if sub.Cost < 0 then (⟨{ p.db with seq := id }⟩, Sub.zero, some .check)
      else if p.db.rows.any (fun r => r.id == id) then
        (⟨{ p.db with seq := id }⟩, Sub.zero, some .unique)
      else
        (⟨{ p.db with seq := id, rows := p.db.rows ++ [insertRow id sub] }⟩,
          { sub with ID := id }, none)

/-- `PostgresDB.Read`: `SELECT * FROM subscriptions WHERE id = $1` with the
string `id` bound to the `INTEGER` parameter.  `int4in` is the store's
conversion of text to `INTEGER` (`none` when the text is not an integer or is
out of range). -/
def PostgresDB.Read (int4in : String → Option Int) (p : PostgresDB) (id : String) :
    Sub × Option Err :=
  match p.db.down with
  | some msg => (Sub.zero, some (.conn msg))
  | none =>
    match int4in id with
    | none => (Sub.zero, some (.badInteger id))
    | some n =>
      match p.db.rows.find? (fun r => r.id == n) with
      | none => (Sub.zero, some .noRows)
      | some r => (scan r, none)

/-- `PostgresDB.Update`: the `UPDATE ... SET ... WHERE id = $5 RETURNING *`.
The candidate's `ID` and `UserID` are not among the arguments.  The returned
row is scanned over the argument, overwriting all six fields. -/
def PostgresDB.Update (int4in : String → Option Int) (p : PostgresDB) (id : String)
    (sub : Sub) : PostgresDB × Sub × Option Err :=
  match p.db.down with
  | some msg => (p, Sub.zero, some (.conn msg))
  | none =>
    if !inInt4 sub.Cost then (p, Sub.zero, some (.intRange sub.Cost))
    else if hasNul sub.ServiceName then (p, Sub.zero, some .badText)
    else
      match int4in id with
      | none => (p, Sub.zero, some (.badInteger id))
      | some n =>
        match p.db.rows.find? (fun r => r.id == n) with
        | none => (p, Sub.zero, some .noRows)
        | some r =>
          if sub.Cost < 0 then (p, Sub.zero, some .check)
          else
            (⟨{ p.db with
                  rows := p.db.rows.map (fun x => if x.id = n then setRow sub x else x) }⟩,
              scan (setRow sub r), none)

/-- `PostgresDB.Delete`: `DELETE FROM subscriptions WHERE id = $1` with a Go
`int` bound to the `INTEGER` parameter. -/
def PostgresDB.Delete (p : PostgresDB) (id : Int) : PostgresDB × Option Err :=
  match p.db.down with
  | some msg => (p, some (.conn msg))
  | none =>
    if !inInt4 id then (p, some (.intRange id))
    else (⟨{ p.db with rows := p.db.rows.filter (fun r => r.id != id) }⟩, none)

/-! ## JSON and HTTP -/

/-- A JSON value as written by `json.Encoder`.  `time t` is the RFC 3339 string
of `t`. -/
inductive Json where
  | null : Json
  | num (n : Int) : Json
  | str (s : String) : Json
  | time (t : Time) : Json
  | arr (items : List Json) : Json
  | obj (members : List (String × Json)) : Json

/-- The encoding of a `Sub` under its struct tags: five members always, and
`end_date` only when the pointer is not nil (`omitempty`). -/
def Sub.toJson (s : Sub) : Json :=
  .obj ([("id", .num s.ID), ("service_name", .str s.ServiceName), ("cost", .num s.Cost),
         ("user_id", .num s.UserID), ("start_date", .time s.StartDate)] ++
        (match s.EndDate with
         | none => []
         | some t => [("end_date", .time t)]))

/-- The encoding of a `[]Sub`: a nil slice is written as `null`, any other
slice as an array. -/
def sliceToJson : Slice Sub → Json
  | .nil => .null
  | .mk l => .arr (l.map Sub.toJson)

/-- The members of a JSON object that `Decode` stores into a `Sub`: each of the
six keys is either absent (or `null`), or present with a value of the field's
type. -/
structure SubObject where
  id : Option Int
  service_name : Option String
  cost : Option Int
  user_id : Option Int
  start_date : Option Time
  end_date : Option Time

/-- A request body as `json.Decoder.Decode` sees it: `invalid msg` is a body it
rejects with message `msg` (not JSON, or a member of the wrong type, such as a
date that is not RFC 3339); `object o` is a body it accepts. -/
inductive Body where
  | invalid (msg : String) : Body
  | object (o : SubObject) : Body

/-- `json.NewDecoder(r.Body).Decode(&sub)`: members present in the body
overwrite the fields of `sub`, absent members leave them as they are. -/
def Decode (body : Body) (sub : Sub) : Sub × Option Err :=
  match body with
  | .invalid msg => (sub, some (.decode msg))
  | .object o =>
    ({ ID := o.id.getD sub.ID,
       ServiceName := o.service_name.getD sub.ServiceName,
       Cost := o.cost.getD sub.Cost,
       UserID := o.user_id.getD sub.UserID,
       StartDate := o.start_date.getD sub.StartDate,
       EndDate := match o.end_date with
                  | some t => some t
                  | none => sub.EndDate }, none)

/-- An HTTP request: the `id` segment of the path (`chi.URLParam(r, "id")`) and
the body. -/
structure Request where
  pathId : String
  body : Body

/-- What has been written to the response body. -/
inductive Payload where
  | empty : Payload
  /-- Plain text, byte for byte. -/
  | text (s : String) : Payload
  /-- One JSON value followed by a newline, as `Encode` writes it. -/
  | json (v : Json) : Payload

/-- The `http.ResponseWriter`: the `Content-Type` and `X-Content-Type-Options`
headers, the status code once the header has been written, and the body. -/
structure ResponseWriter where
  contentType : Option String
  nosniff : Bool
  status : Option Nat
  body : Payload

/-- The writer a handler starts with. -/
def ResponseWriter.fresh : ResponseWriter := ⟨none, false, none, .empty⟩

/-- The status code the client receives: `200` unless the handler wrote
another one. -/
def ResponseWriter.code (w : ResponseWriter) : Nat := w.status.getD 200

/-- `w.WriteHeader(code)`; only the first call counts. -/
def ResponseWriter.WriteHeader (w : ResponseWriter) (code : Nat) : ResponseWriter :=
  match w.status with
  | some _ => w
  | none => { w with status := some code }

/-- `http.Error(w, msg, code)`: sets the plain-text headers, writes the status
and prints `msg` followed by a newline (`fmt.Fprintln`). -/
def httpError (w : ResponseWriter) (msg : String) (code : Nat) : ResponseWriter :=
  let w1 := { w with contentType := some "text/plain; charset=utf-8", nosniff := true }
  let w2 := w1.WriteHeader code
  { w2 with body := .text (msg ++ "\n") }

/-- `json.NewEncoder(w).Encode(v)` for a value already turned into JSON: the
first write sends status `200` if none was sent.  Encoding a `Sub` or a `[]Sub`
cannot fail. -/
def Encode (w : ResponseWriter) (v : Json) : ResponseWriter × Option Err :=
  ({ w.WriteHeader 200 with body := .json v }, none)

/-- `http.StatusInternalServerError`. -/
def StatusInternalServerError : Nat := 500

/-- `http.StatusOK`. -/
def StatusOK : Nat := 200

/-! ## Request handlers -/

/-- The Go struct `SubHandler`. -/
structure SubHandler where
  db : PostgresDB

/-- `NewSubHandler`. -/
def NewSubHandler (db : PostgresDB) : SubHandler := ⟨db⟩

/-- `SubHandler.List`, for `GET /subscriptions`. -/
def SubHandler.List (h : SubHandler) (w : ResponseWriter) (_r : Request) : ResponseWriter :=
  match h.db.List with
  | (_, some err) => httpError w err.Error StatusInternalServerError
  | (res, none) =>
    let w1 := { w with contentType := some "application/json" }
    match Encode w1 (sliceToJson res) with
    | (w2, some err) => httpError w2 err.Error StatusInternalServerError
    | (w2, none) => w2

/-- `SubHandler.Create`, for `POST /subscriptions`. -/
def SubHandler.Create (h : SubHandler) (w : ResponseWriter) (r : Request) :
    SubHandler × ResponseWriter :=
  match Decode r.body Sub.zero with
  | (_, some err) => (h, httpError w err.Error StatusInternalServerError)
  | (sub, none) =>
    match h.db.Create sub with
    | (db, _, some err) => (⟨db⟩, httpError w err.Error StatusInternalServerError)
    | (db, sub, none) =>
      let w1 := { w with contentType := some "application/json" }
      match Encode w1 sub.toJson with
      | (w2, some err) => (⟨db⟩, httpError w2 err.Error StatusInternalServerError)
      | (w2, none) => (⟨db⟩, w2)

/-- `SubHandler.Read`, for `GET /subscriptions/{id}`. -/
def SubHandler.Read (int4in : String → Option Int) (h : SubHandler) (w : ResponseWriter)
    (r : Request) : ResponseWriter :=
  let id := r.pathId
  match h.db.Read int4in id with
  | (_, some err) => httpError w err.Error StatusInternalServerError
  | (sub, none) =>
    let w1 := { w with contentType := some "application/json" }
    match Encode w1 sub.toJson with
    | (w2, some err) => httpError w2 err.Error StatusInternalServerError
    | (w2, none) => w2

/-- `SubHandler.Update`, for `PUT /subscriptions/{id}`. -/
def SubHandler.Update (int4in : String → Option Int) (h : SubHandler) (w : ResponseWriter)
    (r : Request) :
    SubHandler × ResponseWriter :=
  let id := r.pathId
  match Decode r.body Sub.zero with
  | (_, some err) => (h, httpError w err.Error StatusInternalServerError)
  | (sub, none) =>
    match h.db.Update int4in id sub with
    | (db, _, some err) => (⟨db⟩, httpError w err.Error StatusInternalServerError)
    | (db, sub, none) =>
      let w1 := { w with contentType := some "application/json" }
      match Encode w1 sub.toJson with
      | (w2, some err) => (⟨db⟩, httpError w2 err.Error StatusInternalServerError)
      | (w2, none) => (⟨db⟩, w2)

/-- `SubHandler.Delete`, for `DELETE /subscriptions/{id}`: the id deleted is the
one decoded from the body. -/
def SubHandler.Delete (h : SubHandler) (w : ResponseWriter) (r : Request) :
    SubHandler × ResponseWriter :=
  match Decode r.body Sub.zero with
  | (_, some err) => (h, httpError w err.Error StatusInternalServerError)
  | (sub, none) =>
    match h.db.Delete sub.ID with
    | (db, some err) => (⟨db⟩, httpError w err.Error StatusInternalServerError)
    | (db, none) => (⟨db⟩, w.WriteHeader StatusOK)

/-! ## Runs of the record store -/

/-- A call that may change the table. -/
inductive Op where
  | create (sub : Sub) : Op
  | update (id : String) (sub : Sub) : Op
  | delete (id : Int) : Op

/-- The store after one call. -/
def step (int4in : String → Option Int) (p : PostgresDB) : Op → PostgresDB
  | .create sub => (p.Create sub).1
  | .update id sub => (p.Update int4in id sub).1
  | .delete id => (p.Delete id).1

/-- The store after a sequence of calls, first to last. -/
def run (int4in : String → Option Int) (p : PostgresDB) (ops : List Op) : PostgresDB :=
  ops.foldl (step int4in) p

/-- The `PRIMARY KEY` constraint: no two rows share an `id`. -/
def PostgresDB.PrimaryKey (p : PostgresDB) : Prop := (p.db.rows.map Row.id).Nodup

instance (p : PostgresDB) : Decidable p.PrimaryKey := by
  unfold PostgresDB.PrimaryKey
  infer_instance

/-- The table agrees with its schema and its sequence: `id` is a key, every
`id` was drawn from the sequence, and every `cost` passed the check. -/
def PostgresDB.Consistent (p : PostgresDB) : Prop :=
  p.PrimaryKey ∧ 0 ≤ p.db.seq ∧ ∀ r ∈ p.db.rows, 1 ≤ r.id ∧ r.id ≤ p.db.seq ∧ 0 ≤ r.cost

instance (p : PostgresDB) : Decidable p.Consistent := by
  unfold PostgresDB.Consistent
  infer_instance

/-- A record as the table gives it back: both dates cut to the calendar day. -/
def Sub.asStored (s : Sub) : Sub := scan (insertRow s.ID s)

/-- Whether the dates of a record carry no time of day. -/
def Sub.wholeDates (s : Sub) : Bool :=
  s.StartDate.clock == 0 &&
    (match s.EndDate with
     | none => true
     | some t => t.clock == 0)

/-- The candidate of the round-trip example: Netflix, cost 999, user 1, starting
2024-01-01 (day 738885 from 0001-01-01), open-ended. -/
def netflix : Sub := ⟨0, "Netflix", 999, 1, ⟨738885, 0⟩, none⟩

/-- A store text-to-integer conversion used in examples: it reads the
numerals `"1"` and `"2"`. -/
def sampleInt4in (s : String) : Option Int :=
  if s = "1" then some 1 else if s = "2" then some 2 else none

/-- The record `Decode` produces from an accepted body when it starts from the
zero `Sub`: a member that is absent shows as the zero value of its field. -/
def SubObject.decoded (o : SubObject) : Sub :=
  ⟨o.id.getD 0, o.service_name.getD "", o.cost.getD 0, o.user_id.getD 0,
    o.start_date.getD Time.zero, o.end_date⟩

/-- The body that spells out every required field, absent ones with their
zero values. -/
def SubObject.filled (o : SubObject) : SubObject :=
  ⟨some (o.id.getD 0), some (o.service_name.getD ""), some (o.cost.getD 0),
    some (o.user_id.getD 0), some (o.start_date.getD Time.zero), o.end_date⟩

/-- The response `w` surfaces the error `err`: status 500, plain text, and as
body the message of `err` followed by the newline `http.Error` prints, which
is never the empty text. -/
def Surfaced (w : ResponseWriter) (err : Err) : Bool :=
  w.code == 500 && w.contentType == some "text/plain; charset=utf-8" &&
    (match w.body with
     | .text s => s == err.Error ++ "\n" && s != ""
     | _ => false)

/-! ## Basic facts -/

theorem asStored_of_wholeDates (s : Sub) (h : s.wholeDates = true) : s.asStored = s := by
  obtain ⟨id, name, cost, user, ⟨d, c⟩, e⟩ := s
  cases e with
  | none =>
    simp only [Sub.wholeDates, Bool.and_true, beq_iff_eq] at h
    subst h
    rfl
  | some t =>
    obtain ⟨d2, c2⟩ := t
    simp only [Sub.wholeDates, Bool.and_eq_true, beq_iff_eq] at h
    obtain ⟨h1, h2⟩ := h
    subst h1
    subst h2
    rfl

theorem find_none_of_fresh (rows : List Row) (n : Int) (h : ∀ r ∈ rows, r.id ≠ n) :
    rows.find? (fun r => r.id == n) = none := by
  rw [List.find?_eq_none]
  intro r hr
  simpa using h r hr

theorem create_ok (p : PostgresDB) (sub : Sub) (hc : p.Consistent) (hup : p.db.down = none)
    (hseq : p.db.seq < maxInt4) (h0 : 0 ≤ sub.Cost) (h1 : sub.Cost ≤ maxInt4)
    (hu : inInt4 sub.UserID = true) (hn : hasNul sub.ServiceName = false) :
    p.Create sub =
      (⟨{ p.db with seq := p.db.seq + 1,
                    rows := p.db.rows ++ [insertRow (p.db.seq + 1) sub] }⟩,
        { sub with ID := p.db.seq + 1 }, none) := by
  have hcost : inInt4 sub.Cost = true := by
    simp only [inInt4, minInt4, maxInt4, Bool.and_eq_true, decide_eq_true_eq] at *
    omega
  have hfresh : p.db.rows.any (fun r => r.id == p.db.seq + 1) = false := by
    rw [List.any_eq_false]
    intro r hr
    have := (hc.2.2 r hr).2.1
    simp only [beq_iff_eq]
    omega
  have hs : ¬ maxInt4 ≤ p.db.seq := by omega
  have h0' : ¬ sub.Cost < 0 := by omega
  simp [PostgresDB.Create, hup, hcost, hu, hn, hs, h0', hfresh]

theorem consistent_empty (down : Option String) : (emptyTable down).Consistent := by
  simp [PostgresDB.Consistent, PostgresDB.PrimaryKey, emptyTable]

theorem consistent_create (p : PostgresDB) (sub : Sub) (hc : p.Consistent) :
    (p.Create sub).1.Consistent := by
  obtain ⟨hnd, hseq, hrows⟩ := hc
  have hkey : (p.db.rows.map Row.id).Nodup := hnd
  have hbump : PostgresDB.Consistent ⟨{ p.db with seq := p.db.seq + 1 }⟩ := by
    refine ⟨hnd, by simp only; omega, ?_⟩
    intro r hr
    have := hrows r hr
    simp only
    omega
  unfold PostgresDB.Create
  split
  · exact ⟨hnd, hseq, hrows⟩
  · split
    · exact ⟨hnd, hseq, hrows⟩
    · split
      · exact ⟨hnd, hseq, hrows⟩
      · split
        · exact ⟨hnd, hseq, hrows⟩
        · split
          · exact ⟨hnd, hseq, hrows⟩
          · simp only
            split
            · exact hbump
            · split
              · exact hbump
              · rename_i hcost _
                refine ⟨?_, by simp only; omega, ?_⟩
                · simp only [PostgresDB.PrimaryKey, List.map_append, List.map_cons, List.map_nil]
                  rw [List.nodup_append]
                  refine ⟨hkey, List.nodup_singleton _, ?_⟩
                  intro a ha hb
                  simp only [List.mem_map] at ha
                  obtain ⟨r, hr, rfl⟩ := ha
                  simp only [List.mem_singleton, insertRow] at hb
                  have := (hrows r hr).2.1
                  omega
                · intro r hr
                  simp only [List.mem_append, List.mem_singleton] at hr
                  rcases hr with hr | rfl
                  · have := hrows r hr
                    simp only
                    omega
                  · simp only [insertRow]
                    omega

theorem map_setRow_ids (rows : List Row) (n : Int) (sub : Sub) :
    (rows.map (fun x => if x.id = n then setRow sub x else x)).map Row.id = rows.map Row.id := by
  rw [List.map_map]
  apply List.map_congr_left
  intro x _
  simp only [Function.comp]
  split <;> rfl

theorem consistent_update (int4in : String → Option Int) (p : PostgresDB) (id : String)
    (sub : Sub) (hc : p.Consistent) : (p.Update int4in id sub).1.Consistent := by
  obtain ⟨hnd, hseq, hrows⟩ := hc
  unfold PostgresDB.Update
  repeat' split
  all_goals first
    | exact ⟨hnd, hseq, hrows⟩
    | skip
  rename_i hcost
  refine ⟨?_, hseq, ?_⟩
  · simp only [PostgresDB.PrimaryKey, map_setRow_ids]
    exact hnd
  · intro r hr
    simp only [List.mem_map] at hr
    obtain ⟨x, hx, rfl⟩ := hr
    have := hrows x hx
    split
    · simp only [setRow]
      omega
    · exact this

theorem consistent_delete (p : PostgresDB) (id : Int) (hc : p.Consistent) :
    (p.Delete id).1.Consistent := by
  obtain ⟨hnd, hseq, hrows⟩ := hc
  unfold PostgresDB.Delete
  split
  · exact ⟨hnd, hseq, hrows⟩
  · split
    · exact ⟨hnd, hseq, hrows⟩
    · refine ⟨?_, hseq, ?_⟩
      · exact List.Nodup.sublist ((List.filter_sublist _).map _) hnd
      · intro r hr
        exact hrows r (List.mem_of_mem_filter hr)

theorem consistent_step (int4in : String → Option Int) (p : PostgresDB) (op : Op)
    (hc : p.Consistent) : (step int4in p op).Consistent := by
  cases op with
  | create sub => exact consistent_create p sub hc
  | update id sub => exact consistent_update int4in p id sub hc
  | delete id => exact consistent_delete p id hc

theorem consistent_run (int4in : String → Option Int) (ops : List Op) (p : PostgresDB)
    (hc : p.Consistent) : (run int4in p ops).Consistent := by
  induction ops generalizing p with
  | nil => exact hc
  | cons op rest ih => exact ih (step int4in p op) (consistent_step int4in p op hc)

theorem row_eq_of_id_eq (rows : List Row) (hnd : (rows.map Row.id).Nodup) (x r : Row)
    (hx : x ∈ rows) (hr : r ∈ rows) (h : x.id = r.id) : x = r :=
  List.inj_on_of_nodup_map hnd hx hr h

theorem find_of_mem (rows : List Row) (hnd : (rows.map Row.id).Nodup) (r : Row)
    (hr : r ∈ rows) : rows.find? (fun x => x.id == r.id) = some r := by
  cases hf : rows.find? (fun x => x.id == r.id) with
  | none =>
    rw [List.find?_eq_none] at hf
    have := hf r hr
    simp at this
  | some y =>
    have hy : y ∈ rows := List.mem_of_find?_eq_some hf
    have hid : y.id = r.id := by simpa using List.find?_some hf
    rw [row_eq_of_id_eq rows hnd y r hy hr hid]

theorem surfaced_httpError (err : Err) :
    Surfaced (httpError ResponseWriter.fresh err.Error StatusInternalServerError) err = true := by
  have hne : err.Error ++ "\n" ≠ "" := by
    intro h
    have := congrArg String.length h
    simp only [String.length_append] at this
    have h1 : "\n".length = 1 := by decide
    have h2 : "".length = 0 := by decide
    omega
  simp only [Surfaced, httpError, ResponseWriter.fresh, ResponseWriter.WriteHeader,
    ResponseWriter.code, StatusInternalServerError, Option.getD_some, beq_self_eq_true,
    Bool.true_and, Bool.and_eq_true, bne_iff_ne, ne_eq]
  exact hne

/-- C1, as stated, fails on the code in two ways. A candidate with the
non-negative cost 2147483648 is refused, because the `cost` column is a 32-bit
`INTEGER`. And for a candidate whose `start_date` carries a time of day,
`Create` hands the candidate's own timestamp back while `Read` returns the
stored calendar day at midnight, so the two records differ. -/
theorem create_read_roundtrip_counterexample :
    (0 ≤ (⟨0, "Netflix", 2147483648, 1, ⟨738885, 0⟩, none⟩ : Sub).Cost ∧
      ((emptyTable none).Create ⟨0, "Netflix", 2147483648, 1, ⟨738885, 0⟩, none⟩).2.2
        = some (.intRange 2147483648)) ∧
    (((emptyTable none).Create ⟨0, "Netflix", 999, 1, ⟨738885, 1⟩, none⟩).2
        = (⟨1, "Netflix", 999, 1, ⟨738885, 1⟩, none⟩, none) ∧
      ((emptyTable none).Create ⟨0, "Netflix", 999, 1, ⟨738885, 1⟩, none⟩).1.Read sampleInt4in "1"
        = (⟨1, "Netflix", 999, 1, ⟨738885, 0⟩, none⟩, none) ∧
      (((emptyTable none).Create ⟨0, "Netflix", 999, 1, ⟨738885, 1⟩, none⟩).1.Read
          sampleInt4in "1").1
        ≠ ((emptyTable none).Create ⟨0, "Netflix", 999, 1, ⟨738885, 1⟩, none⟩).2.1) := by
  refine ⟨⟨by decide, rfl⟩, rfl, rfl, by decide⟩

/-- C1, amended. On a consistent table of a reachable store whose sequence is
not exhausted, for a candidate whose cost lies in `0 .. 2147483647`, whose
user id fits 32 bits and whose name has no NUL character: `Create` succeeds,
returns the candidate's fields unchanged with a positive id that no earlier row
had; a following `Read` of that id succeeds and returns that record with its
dates cut to the calendar day, hence the identical record when the candidate's
dates carry no time of day. -/
theorem create_read_roundtrip (int4in : String → Option Int) (p : PostgresDB) (sub : Sub)
    (id : String) (hc : p.Consistent) (hup : p.db.down = none) (hseq : p.db.seq < maxInt4)
    (h0 : 0 ≤ sub.Cost) (h1 : sub.Cost ≤ maxInt4) (hu : inInt4 sub.UserID = true)
    (hn : hasNul sub.ServiceName = false)
    (hid : int4in id = some (p.Create sub).2.1.ID) :
    (p.Create sub).2.2 = none ∧
    (p.Create sub).2.1 = { sub with ID := (p.Create sub).2.1.ID } ∧
    0 < (p.Create sub).2.1.ID ∧
    (∀ r ∈ p.db.rows, r.id ≠ (p.Create sub).2.1.ID) ∧
    (p.Create sub).1.Read int4in id = ((p.Create sub).2.1.asStored, none) ∧
    (sub.wholeDates = true →
      (p.Create sub).1.Read int4in id = ((p.Create sub).2.1, none)) := by
  have hcr := create_ok p sub hc hup hseq h0 h1 hu hn
  rw [hcr] at hid ⊢
  simp only at hid
  have hfresh : ∀ r ∈ p.db.rows, r.id ≠ p.db.seq + 1 := by
    intro r hr
    have := (hc.2.2 r hr).2.1
    omega
  have hread : PostgresDB.Read int4in
      ⟨{ p.db with seq := p.db.seq + 1, rows := p.db.rows ++ [insertRow (p.db.seq + 1) sub] }⟩ id
      = (Sub.asStored { sub with ID := p.db.seq + 1 }, none) := by
    simp only [PostgresDB.Read, hup, hid, List.find?_append,
      find_none_of_fresh p.db.rows (p.db.seq + 1) hfresh]
    simp [insertRow, Sub.asStored]
  refine ⟨rfl, rfl, ?_, hfresh, hread, ?_⟩
  · have := hc.2.1
    simp only
    omega
  · intro hw
    rw [hread, asStored_of_wholeDates]
    exact hw

/-- C1 at the example of the specification: on the empty table the Netflix
candidate is created with id 1 and read back identically. -/
theorem create_read_roundtrip_witness :
    ((emptyTable none).Create netflix).2 = (⟨1, "Netflix", 999, 1, ⟨738885, 0⟩, none⟩, none) ∧
    ((emptyTable none).Create netflix).1.Read sampleInt4in "1"
      = (((emptyTable none).Create netflix).2.1, none) :=
  ⟨rfl, (create_read_roundtrip sampleInt4in (emptyTable none) netflix "1" (by decide) rfl
    (by decide) (by decide) (by decide) (by decide) (by decide) rfl).2.2.2.2.2
    rfl⟩

/-! ## C2: the cost invariant -/

/-- C2. After any sequence of `Create`, `Update` and `Delete` calls on the
empty table every stored row has `cost >= 0`; and on any table a `Create` with
a negative cost returns an error with the zero `Sub` and leaves the rows of the
table as they were. -/
theorem cost_invariant (int4in : String → Option Int) (down : Option String) (ops : List Op)
    (p : PostgresDB) (sub : Sub) :
    (∀ r ∈ (run int4in (emptyTable down) ops).db.rows, 0 ≤ r.cost) ∧
    (sub.Cost < 0 →
      (p.Create sub).2.2 ≠ none ∧ (p.Create sub).2.1 = Sub.zero ∧
        (p.Create sub).1.db.rows = p.db.rows) := by
  constructor
  · intro r hr
    exact ((consistent_run int4in ops _ (consistent_empty down)).2.2 r hr).2.2
  · intro hneg
    unfold PostgresDB.Create
    split
    · simp
    · split
      · simp
      · split
        · simp
        · split
          · simp
          · split
            · simp
            · simp [hneg]

/-- C2 at an example: a run that creates two rows, fails to create a third with
cost -1, lowers the first row's cost to 0 and deletes the second leaves one
row, of cost 0; and the create with cost -1 fails on the empty table. -/
theorem cost_invariant_witness :
    (run sampleInt4in (emptyTable none)
        [.create netflix, .create { netflix with Cost := 5 }, .create { netflix with Cost := -1 },
         .update "1" { netflix with Cost := 0 }, .delete 2]).db.rows
      = [⟨1, "Netflix", 0, 1, 738885, none⟩] ∧
    0 ≤ (⟨1, "Netflix", 0, 1, 738885, none⟩ : Row).cost ∧
    ((emptyTable none).Create { netflix with Cost := -1 }).2.2 = some .check ∧
    ((emptyTable none).Create { netflix with Cost := -1 }).1.db.rows = [] :=
  have h := cost_invariant sampleInt4in none
    [.create netflix, .create { netflix with Cost := 5 }, .create { netflix with Cost := -1 },
     .update "1" { netflix with Cost := 0 }, .delete 2] (emptyTable none)
    { netflix with Cost := -1 }
  ⟨rfl, h.1 ⟨1, "Netflix", 0, 1, 738885, none⟩ (by decide), rfl, (h.2 (by decide)).2.2⟩

/-! ## C3: update -/

/-- C3, as stated, fails on the code: on the table holding the Netflix row
under id 1, an update of id 1 with the non-negative cost 2147483648 returns an
error and the zero `Sub` and changes nothing, because the `cost` column is a
32-bit `INTEGER`. -/
theorem update_semantics_counterexample :
    ((emptyTable none).Create netflix).1.db.rows = [⟨1, "Netflix", 999, 1, 738885, none⟩] ∧
    0 ≤ ({ netflix with Cost := 2147483648 } : Sub).Cost ∧
    (((emptyTable none).Create netflix).1.Update sampleInt4in "1"
        { netflix with Cost := 2147483648 }).2 = (Sub.zero, some (.intRange 2147483648)) ∧
    (((emptyTable none).Create netflix).1.Update sampleInt4in "1"
        { netflix with Cost := 2147483648 }).1.db.rows
      = [⟨1, "Netflix", 999, 1, 738885, none⟩] := by
  refine ⟨rfl, by decide, rfl, rfl⟩

/-- C3, amended. On a table of a reachable store whose `id` is a key, for an id
that matches the stored row `r` and a candidate whose cost lies in
`0 .. 2147483647` and whose name has no NUL character: `Update` succeeds; the
row `r` now holds the candidate's `service_name` and `cost` and the calendar
days of the candidate's `start_date` and `end_date`, with the `id` and
`user_id` it had before, whatever `ID` and `UserID` the candidate carries; every
other row, the order of the rows and the sequence are as before; and the record
returned is the row as now stored. -/
theorem update_semantics (int4in : String → Option Int) (p : PostgresDB) (id : String)
    (sub : Sub) (r : Row) (hc : p.PrimaryKey) (hup : p.db.down = none) (hr : r ∈ p.db.rows)
    (hid : int4in id = some r.id) (h0 : 0 ≤ sub.Cost) (h1 : sub.Cost ≤ maxInt4)
    (hn : hasNul sub.ServiceName = false) :
    (p.Update int4in id sub).2.2 = none ∧
    (p.Update int4in id sub).1.db.rows
      = p.db.rows.map (fun x =>
          if x = r then
            ⟨r.id, sub.ServiceName, sub.Cost, r.user_id, sub.StartDate.day,
              sub.EndDate.map Time.day⟩
          else x) ∧
    (p.Update int4in id sub).1.db.seq = p.db.seq ∧
    (p.Update int4in id sub).2.1
      = ⟨r.id, sub.ServiceName, sub.Cost, r.user_id, ⟨sub.StartDate.day, 0⟩,
          sub.EndDate.map (fun t => ⟨t.day, 0⟩)⟩ := by
  have hcost : inInt4 sub.Cost = true := by
    simp only [inInt4, minInt4, maxInt4, Bool.and_eq_true, decide_eq_true_eq] at *
    omega
  have hfind := find_of_mem p.db.rows hc r hr
  have h0' : ¬ sub.Cost < 0 := by omega
  have hmap : p.db.rows.map (fun x => if x.id = r.id then setRow sub x else x)
      = p.db.rows.map (fun x =>
          if x = r then
            ⟨r.id, sub.ServiceName, sub.Cost, r.user_id, sub.StartDate.day,
              sub.EndDate.map Time.day⟩
          else x) := by
    apply List.map_congr_left
    intro x hx
    by_cases hxr : x = r
    · subst hxr
      simp only [if_true, setRow, toDate]
      rfl
    · have : x.id ≠ r.id := fun h => hxr (row_eq_of_id_eq p.db.rows hc x r hx hr h)
      simp only [this, hxr, if_false]
  simp only [PostgresDB.Update, hup, hcost, hn, hid, hfind, h0', hmap]
  refine ⟨rfl, rfl, rfl, ?_⟩
  cases he : sub.EndDate <;> simp [scan, setRow, fromDate, toDate, he]

/-- C3 at an example: updating row 1 with a candidate that carries another id
and another user id changes name, cost and dates only. -/
theorem update_semantics_witness :
    (((emptyTable none).Create netflix).1.Update sampleInt4in "1"
        ⟨77, "Hulu", 5, 42, ⟨738900, 3⟩, some ⟨739000, 0⟩⟩).2.2 = none ∧
    (((emptyTable none).Create netflix).1.Update sampleInt4in "1"
        ⟨77, "Hulu", 5, 42, ⟨738900, 3⟩, some ⟨739000, 0⟩⟩).2.1
      = ⟨1, "Hulu", 5, 1, ⟨738900, 0⟩, some ⟨739000, 0⟩⟩ :=
  have h := update_semantics sampleInt4in ((emptyTable none).Create netflix).1 "1"
    ⟨77, "Hulu", 5, 42, ⟨738900, 3⟩, some ⟨739000, 0⟩⟩ ⟨1, "Netflix", 999, 1, 738885, none⟩
    (by decide) rfl (by decide) rfl (by decide) (by decide) (by decide)
  ⟨h.1, h.2.2.2⟩

/-! ## C4: delete -/

/-- C4, as stated, fails on the code: `Delete` binds its Go `int` to a 32-bit
`INTEGER` parameter, so for the id 2147483648 it returns an error. -/
theorem delete_idempotent_counterexample :
    ((emptyTable none).Delete 2147483648).2 = some (.intRange 2147483648) ∧
    ((emptyTable none).Delete 2147483648).2 ≠ none := by
  refine ⟨rfl, by decide⟩

/-- C4, amended. On every table of a reachable store and for every id that
fits 32 bits, `Delete` returns no error and removes exactly the rows with that
id; if no row has that id the store is unchanged; and a second `Delete` of the
same id returns no error and leaves the store as the first one left it. -/
theorem delete_idempotent (p : PostgresDB) (id : Int) (hup : p.db.down = none)
    (hid : inInt4 id = true) :
    (p.Delete id).2 = none ∧
    (∀ r, r ∈ (p.Delete id).1.db.rows ↔ r ∈ p.db.rows ∧ r.id ≠ id) ∧
    ((∀ r ∈ p.db.rows, r.id ≠ id) → (p.Delete id).1 = p) ∧
    ((p.Delete id).1.Delete id).2 = none ∧
    ((p.Delete id).1.Delete id).1 = (p.Delete id).1 := by
  obtain ⟨⟨rows, seq, down⟩⟩ := p
  simp only at hup
  subst hup
  simp only [PostgresDB.Delete, hid, Bool.not_true, Bool.false_eq_true, if_false,
    List.filter_filter, Bool.and_self, true_and]
  refine ⟨?_, ?_⟩
  · intro r
    simp [List.mem_filter]
  · refine ⟨?_, trivial⟩
    intro h
    have : rows.filter (fun r => r.id != id) = rows := by
      rw [List.filter_eq_self]
      intro r hr
      simpa using h r hr
    rw [this]

/-- C4 at an example: on the table holding only row 1, deleting id 1 twice
and deleting the absent id 5 all succeed. -/
theorem delete_idempotent_witness :
    (((emptyTable none).Create netflix).1.Delete 1).2 = none ∧
    ((((emptyTable none).Create netflix).1.Delete 1).1.Delete 1).2 = none ∧
    ((((emptyTable none).Create netflix).1.Delete 1).1.Delete 1).1
      = (((emptyTable none).Create netflix).1.Delete 1).1 ∧
    (((emptyTable none).Create netflix).1.Delete 5).1 = ((emptyTable none).Create netflix).1 :=
  have h := delete_idempotent ((emptyTable none).Create netflix).1 1 rfl (by decide)
  have h5 := delete_idempotent ((emptyTable none).Create netflix).1 5 rfl (by decide)
  ⟨h.1, h.2.2.2.1, h.2.2.2.2, h5.2.2.1 (by decide)⟩

/-! ## C5: ids that match no row -/

/-- C5. For an id that matches no stored row, `Read` returns an error with the
zero `Sub`, and `Update` returns an error with the zero `Sub` and leaves the
store exactly as it was (`Read` is a query and has no effect on the store in
any case). Conversely, on a table of a reachable store whose `id` is a key, `Read`
of an id that matches the stored row `r` returns no error and exactly that row. -/
theorem not_found_failures (int4in : String → Option Int) (p : PostgresDB) (id : String)
    (sub : Sub) :
    ((∀ r ∈ p.db.rows, int4in id ≠ some r.id) →
      (p.Read int4in id).2 ≠ none ∧ (p.Read int4in id).1 = Sub.zero ∧
      (p.Update int4in id sub).2.2 ≠ none ∧ (p.Update int4in id sub).2.1 = Sub.zero ∧
      (p.Update int4in id sub).1 = p) ∧
    (∀ r ∈ p.db.rows, p.PrimaryKey → p.db.down = none → int4in id = some r.id →
      p.Read int4in id = (scan r, none)) := by
  constructor
  · intro h
    have hfind : ∀ n, int4in id = some n → p.db.rows.find? (fun r => r.id == n) = none := by
      intro n hn
      apply find_none_of_fresh
      intro r hr hrn
      exact h r hr (by rw [hn, hrn])
    refine ⟨?_, ?_, ?_, ?_, ?_⟩
    · unfold PostgresDB.Read
      repeat' split
      all_goals first
        | (rename_i hn _ _ hf; rw [hfind _ hn] at hf; cases hf)
        | simp
    · unfold PostgresDB.Read
      repeat' split
      all_goals first
        | rfl
        | (rename_i hn _ _ hf; rw [hfind _ hn] at hf; cases hf)
    · unfold PostgresDB.Update
      repeat' split
      all_goals first
        | (rename_i hn _ _ hf _; rw [hfind _ hn] at hf; cases hf)
        | simp
    · unfold PostgresDB.Update
      repeat' split
      all_goals first
        | rfl
        | (rename_i hn _ _ hf _; rw [hfind _ hn] at hf; cases hf)
    · unfold PostgresDB.Update
      repeat' split
      all_goals first
        | rfl
        | (rename_i hn _ _ hf _; rw [hfind _ hn] at hf; cases hf)
  · intro r hr hc hup hid
    simp only [PostgresDB.Read, hup, hid, find_of_mem p.db.rows hc r hr]

/-- C5 at an example: on the table holding only row 1, reading or updating
id 2 fails and changes nothing, and reading id 1 returns row 1. -/
theorem not_found_failures_witness :
    (((emptyTable none).Create netflix).1.Read sampleInt4in "2") = (Sub.zero, some .noRows) ∧
    (((emptyTable none).Create netflix).1.Update sampleInt4in "2" netflix).2
      = (Sub.zero, some .noRows) ∧
    (((emptyTable none).Create netflix).1.Update sampleInt4in "2" netflix).1
      = ((emptyTable none).Create netflix).1 ∧
    ((emptyTable none).Create netflix).1.Read sampleInt4in "1"
      = (⟨1, "Netflix", 999, 1, ⟨738885, 0⟩, none⟩, none) :=
  have h := not_found_failures sampleInt4in ((emptyTable none).Create netflix).1 "2" netflix
  have h1 := not_found_failures sampleInt4in ((emptyTable none).Create netflix).1 "1" netflix
  ⟨rfl, rfl, (h.1 (by decide)).2.2.2.2,
    h1.2 ⟨1, "Netflix", 999, 1, 738885, none⟩ (by decide) (by decide) rfl rfl⟩

/-! ## C6: bodies that omit fields -/

/-- C6, as stated, fails on the code: on the empty table, a create request
whose body has no `service_name` (cost 999, user 1, start 2024-01-01) is
answered with status 200 and the created record, and the row is persisted with
the empty string as its name; the same happens for the body with no members at
all. -/
theorem create_missing_field_counterexample :
    (SubHandler.Create ⟨emptyTable none⟩ ResponseWriter.fresh
        ⟨"", .object ⟨none, none, some 999, some 1, some ⟨738885, 0⟩, none⟩⟩).2.code = 200 ∧
    (SubHandler.Create ⟨emptyTable none⟩ ResponseWriter.fresh
        ⟨"", .object ⟨none, none, some 999, some 1, some ⟨738885, 0⟩, none⟩⟩).1.db.db.rows
      = [⟨1, "", 999, 1, 738885, none⟩] ∧
    (SubHandler.Create ⟨emptyTable none⟩ ResponseWriter.fresh
        ⟨"", .object ⟨none, none, none, none, none, none⟩⟩).2.code = 200 ∧
    (SubHandler.Create ⟨emptyTable none⟩ ResponseWriter.fresh
        ⟨"", .object ⟨none, none, none, none, none, none⟩⟩).1.db.db.rows
      = [⟨1, "", 0, 0, 0, none⟩] := by
  refine ⟨rfl, rfl, rfl, rfl⟩

/-- C6, amended. A create request is not refused for omitting a field: an
absent `service_name`, `cost`, `user_id` or `start_date` stands for the empty
string, 0, 0 and the zero date, and for every store, writer and request the
request is handled exactly as the one that spells those values out (same store
afterwards, same response). In particular, on a consistent table of a
reachable store whose sequence is not exhausted, every accepted body whose
cost (0 if absent) lies in `0 .. 2147483647`, whose user id (0 if absent) fits
32 bits and whose name (empty if absent) has no NUL character is answered with
status 200, `Content-Type: application/json` and the created record, and
exactly one row holding those values is added. -/
theorem create_missing_field (h : SubHandler) (w : ResponseWriter) (r : Request)
    (o : SubObject) (hb : r.body = .object o) :
    h.Create w r = h.Create w { r with body := .object o.filled } ∧
    (h.db.Consistent → h.db.db.down = none → h.db.db.seq < maxInt4 →
      0 ≤ o.cost.getD 0 → o.cost.getD 0 ≤ maxInt4 → inInt4 (o.user_id.getD 0) = true →
      hasNul (o.service_name.getD "") = false →
      (h.Create ResponseWriter.fresh r).2.code = 200 ∧
      (h.Create ResponseWriter.fresh r).2.contentType = some "application/json" ∧
      (h.Create ResponseWriter.fresh r).2.body
        = .json (Sub.toJson ⟨h.db.db.seq + 1, o.service_name.getD "", o.cost.getD 0,
            o.user_id.getD 0, o.start_date.getD Time.zero, o.end_date⟩) ∧
      (h.Create ResponseWriter.fresh r).1.db.db.rows
        = h.db.db.rows ++ [⟨h.db.db.seq + 1, o.service_name.getD "", o.cost.getD 0,
            o.user_id.getD 0, (o.start_date.getD Time.zero).day,
            o.end_date.map Time.day⟩]) := by
  have hdec : Decode r.body Sub.zero = (o.decoded, none) := by
    rw [hb]
    cases he : o.end_date <;> simp [Decode, SubObject.decoded, Sub.zero, he]
  have hdec2 : Decode (Body.object o.filled) Sub.zero = (o.decoded, none) := by
    cases he : o.end_date <;> simp [Decode, SubObject.decoded, SubObject.filled, Sub.zero, he]
  constructor
  · simp only [SubHandler.Create, hdec, hdec2]
  · intro hc hup hseq h0 h1 hu hn
    have hcr := create_ok h.db o.decoded hc hup hseq h0 h1 hu hn
    simp only [SubHandler.Create, hdec, hcr, Encode]
    exact ⟨rfl, rfl, rfl, rfl⟩

/-- C6 at examples: on the empty table the body without `service_name` is
answered with the created record and its row is stored with the empty name;
and the body with no members but a cost of -1 is refused exactly as the body
that spells out the empty name, user 0 and the zero date with that cost. -/
theorem create_missing_field_witness :
    (SubHandler.Create ⟨emptyTable none⟩ ResponseWriter.fresh
        ⟨"", .object ⟨none, none, some 999, some 1, some ⟨738885, 0⟩, none⟩⟩).2.body
      = .json (.obj [("id", .num 1), ("service_name", .str ""), ("cost", .num 999),
          ("user_id", .num 1), ("start_date", .time ⟨738885, 0⟩)]) ∧
    (SubHandler.Create ⟨emptyTable none⟩ ResponseWriter.fresh
        ⟨"", .object ⟨none, none, some 999, some 1, some ⟨738885, 0⟩, none⟩⟩).1.db.db.rows
      = [⟨1, "", 999, 1, 738885, none⟩] ∧
    SubHandler.Create ⟨emptyTable none⟩ ResponseWriter.fresh
        ⟨"", .object ⟨none, none, some (-1), none, none, none⟩⟩
      = SubHandler.Create ⟨emptyTable none⟩ ResponseWriter.fresh
        ⟨"", .object ⟨some 0, some "", some (-1), some 0, some Time.zero, none⟩⟩ :=
  have h := create_missing_field ⟨emptyTable none⟩ ResponseWriter.fresh
    ⟨"", .object ⟨none, none, some 999, some 1, some ⟨738885, 0⟩, none⟩⟩
    ⟨none, none, some 999, some 1, some ⟨738885, 0⟩, none⟩ rfl
  have hs := h.2 (by decide) rfl (by decide) (by decide) (by decide) (by decide) (by decide)
  ⟨hs.2.2.1, hs.2.2.2,
    (create_missing_field ⟨emptyTable none⟩ ResponseWriter.fresh
      ⟨"", .object ⟨none, none, some (-1), none, none, none⟩⟩
      ⟨none, none, some (-1), none, none, none⟩ rfl).1⟩

/-! ## C7: errors -/

/-- C7, as stated, fails on the code: `http.Error` prints the message and then
a newline, so the body is not the message alone. For the create request whose
body is cut short and rejected with `unexpected EOF`, the body of the response
is that message with a newline after it. -/
theorem uniform_error_surfacing_counterexample :
    (SubHandler.Create ⟨emptyTable none⟩ ResponseWriter.fresh
        ⟨"", .invalid "unexpected EOF"⟩).2.body = .text "unexpected EOF\n" ∧
    (SubHandler.Create ⟨emptyTable none⟩ ResponseWriter.fresh
        ⟨"", .invalid "unexpected EOF"⟩).2.body ≠ .text (Err.decode "unexpected EOF").Error := by
  refine ⟨rfl, ?_⟩
  intro h
  exact absurd (Payload.text.inj h) (by decide)

/-- C7, amended. In each of the five handlers, for every store and request: if
decoding the body fails, or the store operation fails, the response has status
500, content type `text/plain; charset=utf-8`, and as body the error's message
verbatim followed by one newline (so it is never empty); and when decoding
fails in `Create`, `Update` or `Delete` the store is not touched. -/
theorem uniform_error_surfacing (int4in : String → Option Int) (h : SubHandler) (r : Request) :
    (∀ err, h.db.List.2 = some err → Surfaced (h.List ResponseWriter.fresh r) err) ∧
    (∀ err, (h.db.Read int4in r.pathId).2 = some err →
      Surfaced (h.Read int4in ResponseWriter.fresh r) err) ∧
    (∀ err, (Decode r.body Sub.zero).2 = some err →
      (Surfaced (h.Create ResponseWriter.fresh r).2 err ∧
        (h.Create ResponseWriter.fresh r).1 = h) ∧
      (Surfaced (h.Update int4in ResponseWriter.fresh r).2 err ∧
        (h.Update int4in ResponseWriter.fresh r).1 = h) ∧
      (Surfaced (h.Delete ResponseWriter.fresh r).2 err ∧
        (h.Delete ResponseWriter.fresh r).1 = h)) ∧
    (∀ sub err, Decode r.body Sub.zero = (sub, none) →
      ((h.db.Create sub).2.2 = some err → Surfaced (h.Create ResponseWriter.fresh r).2 err) ∧
      ((h.db.Update int4in r.pathId sub).2.2 = some err →
        Surfaced (h.Update int4in ResponseWriter.fresh r).2 err) ∧
      ((h.db.Delete sub.ID).2 = some err →
        Surfaced (h.Delete ResponseWriter.fresh r).2 err)) := by
  refine ⟨?_, ?_, ?_, ?_⟩
  · intro err he
    rcases hL : h.db.List with ⟨res, e⟩
    simp only [hL] at he
    subst he
    simp only [SubHandler.List, hL]
    exact surfaced_httpError err
  · intro err he
    rcases hR : h.db.Read int4in r.pathId with ⟨res, e⟩
    simp only [hR] at he
    subst he
    simp only [SubHandler.Read, hR]
    exact surfaced_httpError err
  · intro err he
    rcases hD : Decode r.body Sub.zero with ⟨sub, e⟩
    simp only [hD] at he
    subst he
    simp only [SubHandler.Create, SubHandler.Update, SubHandler.Delete, hD, and_true]
    exact ⟨surfaced_httpError err, surfaced_httpError err, surfaced_httpError err⟩
  · intro sub err hD
    refine ⟨?_, ?_, ?_⟩
    · intro he
      rcases hC : h.db.Create sub with ⟨db, res, e⟩
      simp only [hC] at he
      subst he
      simp only [SubHandler.Create, hD, hC]
      exact surfaced_httpError err
    · intro he
      rcases hU : h.db.Update int4in r.pathId sub with ⟨db, res, e⟩
      simp only [hU] at he
      subst he
      simp only [SubHandler.Update, hD, hU]
      exact surfaced_httpError err
    · intro he
      rcases hX : h.db.Delete sub.ID with ⟨db, e⟩
      simp only [hX] at he
      subst he
      simp only [SubHandler.Delete, hD, hX]
      exact surfaced_httpError err

/-- C7 at examples, one per failure: a store that cannot be reached under
`List`, an absent row under `Read` and `Update`, a rejected body, a negative
cost under `Create`, and an id beyond 32 bits under `Delete`. -/
theorem uniform_error_surfacing_witness :
    Surfaced (SubHandler.List ⟨emptyTable (some "connection refused")⟩ ResponseWriter.fresh
        ⟨"", .object ⟨none, none, none, none, none, none⟩⟩) (.conn "connection refused") ∧
    Surfaced (SubHandler.Read sampleInt4in ⟨emptyTable none⟩ ResponseWriter.fresh
        ⟨"1", .object ⟨none, none, none, none, none, none⟩⟩) .noRows ∧
    (Surfaced (SubHandler.Create ⟨emptyTable none⟩ ResponseWriter.fresh
        ⟨"1", .invalid "unexpected EOF"⟩).2 (.decode "unexpected EOF") ∧
      (SubHandler.Create ⟨emptyTable none⟩ ResponseWriter.fresh
        ⟨"1", .invalid "unexpected EOF"⟩).1 = ⟨emptyTable none⟩) ∧
    Surfaced (SubHandler.Create ⟨emptyTable none⟩ ResponseWriter.fresh
        ⟨"1", .object ⟨none, none, some (-1), none, none, none⟩⟩).2 .check ∧
    Surfaced (SubHandler.Update sampleInt4in ⟨emptyTable none⟩ ResponseWriter.fresh
        ⟨"1", .object ⟨none, none, some 3, none, none, none⟩⟩).2 .noRows ∧
    Surfaced (SubHandler.Delete ⟨emptyTable none⟩ ResponseWriter.fresh
        ⟨"1", .object ⟨some 2147483648, none, none, none, none, none⟩⟩).2
      (.intRange 2147483648) :=
  ⟨(uniform_error_surfacing sampleInt4in ⟨emptyTable (some "connection refused")⟩
      ⟨"", .object ⟨none, none, none, none, none, none⟩⟩).1 _ rfl,
   (uniform_error_surfacing sampleInt4in ⟨emptyTable none⟩
      ⟨"1", .object ⟨none, none, none, none, none, none⟩⟩).2.1 _ rfl,
   ((uniform_error_surfacing sampleInt4in ⟨emptyTable none⟩
      ⟨"1", .invalid "unexpected EOF"⟩).2.2.1 _ rfl).1,
   ((uniform_error_surfacing sampleInt4in ⟨emptyTable none⟩
      ⟨"1", .object ⟨none, none, some (-1), none, none, none⟩⟩).2.2.2 _ _ rfl).1 rfl,
   ((uniform_error_surfacing sampleInt4in ⟨emptyTable none⟩
      ⟨"1", .object ⟨none, none, some 3, none, none, none⟩⟩).2.2.2 _ _ rfl).2.1 rfl,
   ((uniform_error_surfacing sampleInt4in ⟨emptyTable none⟩
      ⟨"1", .object ⟨some 2147483648, none, none, none, none, none⟩⟩).2.2.2 _ _ rfl).2.2 rfl⟩

/-! ## C8: the delete handler -/

/-- C8, as stated, fails on the code: the accepted body with `id` 2147483648
is answered with status 500 and an error text, not with 200 and an empty body,
because the id is bound to a 32-bit `INTEGER` parameter. -/
theorem delete_uses_body_id_counterexample :
    (SubHandler.Delete ⟨emptyTable none⟩ ResponseWriter.fresh
        ⟨"1", .object ⟨some 2147483648, none, none, none, none, none⟩⟩).2.code = 500 ∧
    (SubHandler.Delete ⟨emptyTable none⟩ ResponseWriter.fresh
        ⟨"1", .object ⟨some 2147483648, none, none, none, none, none⟩⟩).2.body
      = .text ((Err.intRange 2147483648).Error ++ "\n") := by
  refine ⟨rfl, rfl⟩

/-- C8, amended. Two delete requests that differ only in their path id leave
the same store and get the same response, for every store and body. On every
table of a reachable store, for every path id and every accepted body whose
`id` (0 when absent) fits 32 bits, the handler removes exactly the rows whose
id is the body's and answers 200 with no body and no content type. -/
theorem delete_uses_body_id (h : SubHandler) (path path2 : String) (b : Body) (o : SubObject) :
    h.Delete ResponseWriter.fresh ⟨path, b⟩ = h.Delete ResponseWriter.fresh ⟨path2, b⟩ ∧
    (h.db.db.down = none → inInt4 (o.id.getD 0) = true →
      (h.Delete ResponseWriter.fresh ⟨path, .object o⟩).2
          = ⟨none, false, some 200, .empty⟩ ∧
        (h.Delete ResponseWriter.fresh ⟨path, .object o⟩).2.code = 200 ∧
        (h.Delete ResponseWriter.fresh ⟨path, .object o⟩).1.db.db.rows
          = h.db.db.rows.filter (fun x => x.id != o.id.getD 0) ∧
        (h.Delete ResponseWriter.fresh ⟨path, .object o⟩).1.db.db.seq = h.db.db.seq) := by
  refine ⟨rfl, ?_⟩
  intro hup hid
  have hid' : inInt4 (o.id.getD Sub.zero.ID) = true := hid
  have hdel : h.Delete ResponseWriter.fresh ⟨path, .object o⟩
      = (⟨⟨{ h.db.db with rows := h.db.db.rows.filter (fun x => x.id != o.id.getD 0) }⟩⟩,
          ⟨none, false, some 200, .empty⟩) := by
    simp only [SubHandler.Delete, Decode, PostgresDB.Delete, hup, hid', Bool.not_true,
      Bool.false_eq_true, if_false]
    rfl
  rw [hdel]
  exact ⟨rfl, rfl, rfl, rfl⟩

/-- C8 at an example: with rows 1 and 2 stored, a delete request to path id 1
whose body names id 2 removes row 2 and keeps row 1. -/
theorem delete_uses_body_id_witness :
    (SubHandler.Delete ⟨(((emptyTable none).Create netflix).1.Create netflix).1⟩
        ResponseWriter.fresh ⟨"1", .object ⟨some 2, none, none, none, none, none⟩⟩).2.code = 200 ∧
    (SubHandler.Delete ⟨(((emptyTable none).Create netflix).1.Create netflix).1⟩
        ResponseWriter.fresh ⟨"1", .object ⟨some 2, none, none, none, none, none⟩⟩).1.db.db.rows
      = [⟨1, "Netflix", 999, 1, 738885, none⟩] :=
  have h := (delete_uses_body_id ⟨(((emptyTable none).Create netflix).1.Create netflix).1⟩
    "1" "2" (.object ⟨some 2, none, none, none, none, none⟩)
    ⟨some 2, none, none, none, none, none⟩).2 rfl (by decide)
  ⟨h.2.1, h.2.2.1.trans (by decide)⟩

/-! ## C9: list after creates -/

/-- On a reachable store the list handler answers 200 with content type
`application/json`; the body is the array of the stored rows, one object each,
when there is at least one row. -/
theorem list_handler_rows (h : SubHandler) (r : Request) (hup : h.db.db.down = none)
    (hne : h.db.db.rows ≠ []) :
    h.List ResponseWriter.fresh r
      = ⟨some "application/json", false, some 200,
          .json (.arr (h.db.db.rows.map (fun x => (scan x).toJson)))⟩ := by
  have hfold : ∀ (rows : List Row) (l : List Sub),
      rows.foldl (fun subs x => subs.append (scan x)) (Slice.mk l)
        = Slice.mk (l ++ rows.map scan) := by
    intro rows
    induction rows with
    | nil => intro l; simp
    | cons x rest ih =>
      intro l
      have hstep : (Slice.mk l).append (scan x) = Slice.mk (l ++ [scan x]) := rfl
      simp only [List.foldl_cons, hstep, ih, List.map_cons, List.append_assoc,
        List.singleton_append]
  cases hrows : h.db.db.rows with
  | nil => exact absurd hrows hne
  | cons x rest =>
    have hstep : (Slice.nil : Slice Sub).append (scan x) = Slice.mk [scan x] := rfl
    have hlist : h.db.List = (Slice.mk (scan x :: rest.map scan), none) := by
      simp only [PostgresDB.List, hup, hrows, List.foldl_cons, hstep, hfold,
        List.singleton_append]
    simp only [SubHandler.List, hlist, Encode, sliceToJson, List.map_cons, List.map_map]
    rfl

/-- C10 at its failing input: on the empty table the list handler answers 200
with content type `application/json`, but the body is the JSON value `null`,
not the empty array, because the slice that `List` returns was never appended
to. -/
theorem list_handler_empty_table :
    SubHandler.List ⟨emptyTable none⟩ ResponseWriter.fresh
        ⟨"", .object ⟨none, none, none, none, none, none⟩⟩
      = ⟨some "application/json", false, some 200, .json .null⟩ ∧
    (SubHandler.List ⟨emptyTable none⟩ ResponseWriter.fresh
        ⟨"", .object ⟨none, none, none, none, none, none⟩⟩).body ≠ .json (.arr []) := by
  refine ⟨rfl, ?_⟩
  intro h
  injection h with h
  cases h

end Subscriptions
